import Mathlib

/-
Shallow embedding of the DSPy-GEPA prompt-optimization core of this repository:
  src/src/lib/dspy-gepa/parameter.py      (PromptParameter, ParameterState)
  src/src/lib/dspy-gepa/base_module.py    (BasePromptModule)
  src/src/lib/dspy-gepa/gepa_optimizer.py (GEPAOptimizer)
  src/src/lib/dspy-gepa/types.py          (GEPAConfig)

Modelling conventions:
- Python floats are modelled as exact rationals, represented by a numerator
  and a positive denominator without normalization (type Q below); kernel
  computation then only needs integer arithmetic.  The float value
  -inf (used by the optimizer to penalize failed evaluations) is the value
  none of the option type Fit.  The one place the source can produce nan
  (abs(-inf - -inf) inside _check_convergence) is modelled by an explicit
  case split that returns false for every comparison involving a non-finite
  value, exactly as IEEE comparison semantics dictate there.
- Exceptions are modelled with Except Unit: a raised exception that the
  source does not catch propagates as Except.error.
- The random module is modelled as an oracle Rng holding three streams that
  successively answer random.random(), random.choice(...) (an index into the
  choice list) and random.sample(range(n), k) (k indices below n); the
  optimizer threads this oracle explicitly.
- copy.deepcopy of a module is the identity on our immutable values; Python
  in-place mutation becomes functional update.  Aspects with no bearing on
  the claims (timestamps, metadata, performance metrics, the dotted path
  string stored inside a parameter, and _apply_prompt_to_module, which only
  writes into external DSPy consumer objects) are omitted; the
  optimization_history list of a parameter is modelled by its length
  (histCount), which update_prompt increments exactly when the source
  appends a record.
- The evaluation function and the reflection adapter are external
  collaborators and are taken as oracle parameters; the reflection adapter
  receives the prompt text and the fitness score (the execution traces the
  source passes are mock data generated from three random draws, modelled by
  the corresponding consumption of the random stream).
-/

namespace GEPA

/-- Exact rational scalar standing for a Python float: numerator over a
positive denominator, not normalized.  All operations are plain integer
arithmetic, so the kernel can evaluate concrete runs. -/
structure Q where
  num : Int
  den : Nat
deriving DecidableEq, Repr

/-- Value comparison a < b by cross multiplication. -/
def Q.ltb (a b : Q) : Bool := a.num * (b.den : Int) < b.num * (a.den : Int)

/-- Value equality a == b by cross multiplication (Python float equality). -/
def Q.qeq (a b : Q) : Bool := a.num * (b.den : Int) == b.num * (a.den : Int)

/-- Addition. -/
def Q.add (a b : Q) : Q := ⟨a.num * (b.den : Int) + b.num * (a.den : Int), a.den * b.den⟩

/-- Subtraction. -/
def Q.sub (a b : Q) : Q := ⟨a.num * (b.den : Int) - b.num * (a.den : Int), a.den * b.den⟩

/-- Absolute value. -/
def Q.qabs (a : Q) : Q := ⟨if a.num < 0 then -a.num else a.num, a.den⟩

/-- Division by a natural number (used for averaging). -/
def Q.divN (a : Q) (n : Nat) : Q := ⟨a.num, a.den * n⟩

/-- Fitness value of an individual: a finite float, or none for float(-inf)
(the fitness the optimizer assigns to a failed evaluation). -/
abbrev Fit := Option Q

/-- Python float comparison a > b in the presence of -inf. -/
def fgt : Fit → Fit → Bool
  | none, _ => false
  | some _, none => true
  | some a, some b => Q.ltb b a

/-- Python float equality in the presence of -inf (used by list.index). -/
def feq : Fit → Fit → Bool
  | none, none => true
  | some a, some b => Q.qeq a b
  | _, _ => false

/-- Maximum accumulator: replace the accumulator only on strict increase.
This is both how Python max scans a list (keeping the first maximum) and how
optimize_module updates self.best_fitness. -/
def fmaxA (acc x : Fit) : Fit := if fgt x acc then x else acc

/-- Python max over a list of fitness values; none (= -inf) for safety on
the empty list, on which the source raises instead (the caller guards). -/
def listMax (l : List Fit) : Fit := l.foldl fmaxA none

/-- Python list.index(v): index of the first element equal to v. -/
def idxOfVal (v : Fit) : List Fit → Nat
  | [] => 0
  | x :: rest => if feq x v then 0 else idxOfVal v rest + 1

/-- Python float addition lifted to -inf (sum with a -inf summand is -inf). -/
def fadd : Fit → Fit → Fit
  | some a, some b => some (Q.add a b)
  | _, _ => none

/-- Python sum() over fitness values, starting from 0. -/
def fsum (l : List Fit) : Fit := l.foldl fadd (some ⟨0, 1⟩)

/-- sum(fitness_scores) / len(population): the avg_fitness statistic. -/
def favg (l : List Fit) : Fit := (fsum l).map (fun s => s.divN l.length)

/-- Python sum() over plain floats (per-example scores). -/
def qsum (l : List Q) : Q := l.foldl Q.add ⟨0, 1⟩

/-- ParameterState from parameter.py, lines 17-22. -/
inductive ParameterState where
  | active
  | inactive
  | frozen
  | archived
deriving DecidableEq, Repr

/-- PromptParameter from parameter.py, lines 25-39; histCount is the length
of optimization_history. -/
structure PromptParameter where
  name : String
  value : String
  state : ParameterState := ParameterState.active
  histCount : Nat := 0
deriving DecidableEq, Repr

/-- PromptParameter.is_optimizable (parameter.py lines 86-88):
only ACTIVE parameters are optimizable. -/
def PromptParameter.isOptimizable (p : PromptParameter) : Bool :=
  p.state == ParameterState.active

/-- PromptParameter.freeze (parameter.py lines 76-79). -/
def PromptParameter.freeze (p : PromptParameter) : PromptParameter :=
  { p with state := ParameterState.frozen }

/-- BasePromptModule from base_module.py: _learning_enabled, the ordered
name-to-parameter mapping _prompt_parameters, and the submodule attributes
(in attribute insertion order, as __dict__ iteration yields them). -/
inductive BasePromptModule where
  | mk (learningEnabled : Bool) (params : List PromptParameter)
       (subs : List (String × BasePromptModule))

/-- The _learning_enabled flag. -/
def BasePromptModule.learningEnabled : BasePromptModule → Bool
  | .mk le _ _ => le

/-- The ordered _prompt_parameters mapping. -/
def BasePromptModule.params : BasePromptModule → List PromptParameter
  | .mk _ ps _ => ps

/-- The submodule attributes. -/
def BasePromptModule.subs : BasePromptModule → List (String × BasePromptModule)
  | .mk _ _ s => s

/-- Replace the parameter list (in-place mutation made functional). -/
def BasePromptModule.withParams : BasePromptModule → List PromptParameter → BasePromptModule
  | .mk le _ s, ps => .mk le ps s

/-- Replace the submodule list. -/
def BasePromptModule.withSubs :
    BasePromptModule → List (String × BasePromptModule) → BasePromptModule
  | .mk le ps _, s => .mk le ps s

/-- Placeholder module for out-of-range list indexing; every access through
it in the development is guarded by an index bound. -/
def defaultModule : BasePromptModule := .mk true [] []

/-- BasePromptModule.has_prompt (base_module.py lines 131-133). -/
def BasePromptModule.hasPrompt (m : BasePromptModule) (name : String) : Bool :=
  m.params.any (fun p => p.name == name)

/-- BasePromptModule.get_prompt (base_module.py lines 126-129). -/
def BasePromptModule.getPrompt (m : BasePromptModule) (name : String) : Option String :=
  (m.params.find? (fun p => p.name == name)).map (fun p => p.value)

/-- BasePromptModule.update_prompt (base_module.py lines 89-124): false if
the name is unknown, otherwise overwrite value (regardless of the parameter
state) and append an optimization record unless suppressed. -/
def BasePromptModule.updatePrompt (m : BasePromptModule) (name newPrompt : String)
    (recordOptimization : Bool) : BasePromptModule × Bool :=
  if m.params.any (fun p => p.name == name) then
    (m.withParams (m.params.map (fun p =>
      if p.name == name then
        { p with value := newPrompt,
                 histCount := p.histCount + (if recordOptimization then 1 else 0) }
      else p)), true)
  else (m, false)

/-- BasePromptModule.register_prompt (base_module.py lines 51-87): update the
value of an existing parameter of the same name, else append a new ACTIVE
parameter. -/
def BasePromptModule.registerPrompt (m : BasePromptModule) (name prompt : String) :
    BasePromptModule :=
  if m.params.any (fun p => p.name == name) then
    m.withParams (m.params.map (fun p =>
      if p.name == name then { p with value := prompt } else p))
  else
    m.withParams (m.params ++ [{ name := name, value := prompt }])

/-- BasePromptModule.freeze_prompt (base_module.py lines 144-149). -/
def BasePromptModule.freezePrompt (m : BasePromptModule) (name : String) :
    BasePromptModule × Bool :=
  if m.params.any (fun p => p.name == name) then
    (m.withParams (m.params.map (fun p => if p.name == name then p.freeze else p)), true)
  else (m, false)

mutual

/-- BasePromptModule.named_modules (base_module.py lines 219-247): yields
the module itself under the running prefix (initially empty) followed by
every descendant under its dotted prefix.  The visited-set of the source
never fires on our values, which form genuine trees. -/
def BasePromptModule.namedModules : BasePromptModule → List (String × BasePromptModule)
  | .mk le ps subs => ("", .mk le ps subs) :: namedModulesGo subs

/-- Helper for named_modules: the submodule attributes, each recursed with
its name spliced onto the front of the prefixes it produces. -/
def namedModulesGo :
    List (String × BasePromptModule) → List (String × BasePromptModule)
  | [] => []
  | (n, c) :: rest =>
      (BasePromptModule.namedModules c).map
        (fun q => (if q.1 = "" then n else n ++ "." ++ q.1, q.2)) ++ namedModulesGo rest

end

/-- named_parameters(recurse=False) (base_module.py lines 195-198): the
direct parameters that are optimizable, with their names. -/
def BasePromptModule.namedParametersNoRec (m : BasePromptModule) :
    List (String × PromptParameter) :=
  (m.params.filter (fun p => p.isOptimizable)).map (fun p => (p.name, p))

/-- named_parameters(recurse=True) (base_module.py lines 185-205): direct
optimizable parameters, then for every non-root named module its direct
optimizable parameters under the dotted prefix. -/
def BasePromptModule.namedParameters (m : BasePromptModule) :
    List (String × PromptParameter) :=
  m.namedParametersNoRec ++
    (m.namedModules.filter (fun q => q.1 ≠ "")).flatMap
      (fun q => q.2.namedParametersNoRec.map (fun np => (q.1 ++ "." ++ np.1, np.2)))

/-- The direct parameters yielded by parameters(recurse=False)
(base_module.py lines 175-178): the optimizable ones. -/
def BasePromptModule.parametersDirect (m : BasePromptModule) : List PromptParameter :=
  m.params.filter (fun p => p.isOptimizable)

/-- parameters(recurse=True) (base_module.py lines 165-183).  The source
recurses through self.modules(), whose first element is the module itself,
so the generator never terminates: it yields the direct optimizable
parameters over and over.  The fuel index truncates that unbounded
unfolding; every element the generator can ever yield appears in some
finite approximation. -/
def BasePromptModule.parametersFuel : Nat → BasePromptModule → List PromptParameter
  | 0, _ => []
  | fuel + 1, m =>
      m.parametersDirect ++
        (m.namedModules.map (fun q => q.2)).flatMap (BasePromptModule.parametersFuel fuel)

/-- get_prompt_dict(recurse=False) (base_module.py lines 363-368): name to
value for the direct optimizable parameters. -/
def BasePromptModule.getPromptDictNoRec (m : BasePromptModule) : List (String × String) :=
  (m.params.filter (fun p => p.isOptimizable)).map (fun p => (p.name, p.value))

/-- get_prompt_dict(recurse=True) (base_module.py lines 353-378): the direct
entries, then for every non-root named module its direct entries under the
dotted prefix. -/
def BasePromptModule.getPromptDict (m : BasePromptModule) : List (String × String) :=
  m.getPromptDictNoRec ++
    (m.namedModules.filter (fun q => q.1 ≠ "")).flatMap
      (fun q => q.2.getPromptDictNoRec.map (fun nv => (q.1 ++ "." ++ nv.1, nv.2)))

/-- Whether a parameter-dict key contains a dot (Python: '.' in name). -/
def hasDot (s : String) : Bool := s.data.any (fun c => c = '.')

/-- Split a character list at the first dot, if any. -/
def breakAtDot : List Char → List Char × Option (List Char)
  | [] => ([], none)
  | c :: rest =>
      if c = '.' then ([], some rest)
      else
        let (l, r) := breakAtDot rest
        (c :: l, r)

/-- Python name.split(sep, maxsplit) with sep a dot and maxsplit one, for a
name that contains a dot: the part before the first dot and the rest. -/
def dotSplit1 (s : String) : String × String :=
  match breakAtDot s.data with
  | (l, some r) => (⟨l⟩, ⟨r⟩)
  | (l, none) => (⟨l⟩, "")

/-- load_prompt_dict with recurse=False (base_module.py lines 388-394 with
the submodule pass skipped): for each undotted key update the parameter if
present, else register it; dotted keys are ignored. -/
def BasePromptModule.loadFlat (m : BasePromptModule) (d : List (String × String)) :
    BasePromptModule :=
  d.foldl
    (fun acc nv =>
      if hasDot nv.1 then acc
      else if acc.hasPrompt nv.1 then (acc.updatePrompt nv.1 nv.2 false).1
      else acc.registerPrompt nv.1 nv.2)
    m

/-- Insert one entry into the grouped submodule dictionaries, preserving
first-seen group order and per-group insertion order (Python nested dict
building, base_module.py lines 398-404). -/
def addToGroup :
    List (String × List (String × String)) → String → String × String →
      List (String × List (String × String))
  | [], mn, e => [(mn, [e])]
  | (k, es) :: rest, mn, e =>
      if k = mn then (k, es ++ [e]) :: rest else (k, es) :: addToGroup rest mn e

/-- Group the dotted keys of a prompt dict by the segment before the first
dot, keeping the rest of each key. -/
def groupFirst (l : List (String × String)) : List (String × List (String × String)) :=
  l.foldl (fun acc nv => addToGroup acc (dotSplit1 nv.1).1 ((dotSplit1 nv.1).2, nv.2)) []

/-- Apply a function to the submodule of the given name, if present. -/
def BasePromptModule.mapSub (m : BasePromptModule) (n : String)
    (f : BasePromptModule → BasePromptModule) : BasePromptModule :=
  m.withSubs (m.subs.map (fun sc => if sc.1 = n then (sc.1, f sc.2) else sc))

/-- load_prompt_dict with recurse=True (base_module.py lines 380-411): load
the undotted keys directly, then group the dotted keys by their first
segment and hand each group to the matching submodule attribute with
recurse=False (source line 411), which is loadFlat. -/
def BasePromptModule.loadPromptDict (m : BasePromptModule) (d : List (String × String)) :
    BasePromptModule :=
  let m1 := m.loadFlat d
  (groupFirst (d.filter (fun nv => hasDot nv.1))).foldl
    (fun acc g =>
      match acc.subs.find? (fun sc => sc.1 = g.1) with
      | some _ => acc.mapSub g.1 (fun c => c.loadFlat g.2)
      | none => acc)
    m1

/-- GEPAConfig from types.py lines 158-170, with the documented defaults. -/
structure GEPAConfig where
  population_size : Nat := 10
  generations : Nat := 5
  mutation_rate : Q := ⟨3, 10⟩
  crossover_rate : Q := ⟨7, 10⟩
  tournament_size : Nat := 3
  elitism_count : Nat := 2
  reflection_model : String := "gemini-1.5-flash"
  max_prompt_length : Nat := 4000
  budget : Nat := 15
  convergence_threshold : Q := ⟨1, 100⟩
  max_iterations : Nat := 100

/-- Oracle for the random module: streams answering successive calls of
random.random(), random.choice (an index into the choice list) and
random.sample(range(n), k) (index pool reduced modulo n). -/
structure Rng where
  floats : Nat → Q
  choices : Nat → Nat
  samples : Nat → List Nat
  fi : Nat := 0
  ci : Nat := 0
  si : Nat := 0

/-- Consume one random.random() draw. -/
def Rng.nextFloat (r : Rng) : Q × Rng := (r.floats r.fi, { r with fi := r.fi + 1 })

/-- Consume n random.random() draws whose values are irrelevant (the mock
execution-time draws inside _collect_execution_traces). -/
def Rng.skipFloats (r : Rng) (n : Nat) : Rng := { r with fi := r.fi + n }

/-- Consume one random.choice over a list of length n: an index below n. -/
def Rng.nextChoice (r : Rng) (n : Nat) : Nat × Rng :=
  (r.choices r.ci % n, { r with ci := r.ci + 1 })

/-- Consume one random.sample(range(n), k): k indices below n. -/
def Rng.nextSample (r : Rng) (n k : Nat) : List Nat × Rng :=
  ((List.range k).map (fun j => ((r.samples r.si).getD j 0) % n), { r with si := r.si + 1 })

/-- The externally supplied async evaluation function: may raise. -/
abbrev EvalFn (Ex : Type) := BasePromptModule → Option Ex → Except Unit Q

/-- The external reflection adapter (ReflectionModel.forward): given a
prompt and the current fitness, may return an improved prompt or raise. -/
abbrev ReflectFn := String → Q → Except Unit String

/-- The twelve mutation templates of _mutate_prompt
(gepa_optimizer.py lines 375-395). -/
def mutationTemplate (i : Nat) (prompt : String) : String :=
  match i with
  | 0 => "Be specific and detailed in your response. " ++ prompt
  | 1 => "Provide concrete examples in your answer. " ++ prompt
  | 2 => "Focus on accuracy and precision. " ++ prompt
  | 3 => "Keep your response concise and to the point. " ++ prompt
  | 4 => "Structure your response clearly with headings. " ++ prompt
  | 5 => "Include relevant data and statistics. " ++ prompt
  | 6 => "As an expert in this field, " ++ prompt.toLower
  | 7 => "Consider both theoretical and practical aspects. " ++ prompt
  | 8 => "Address potential counterarguments. " ++ prompt
  | 9 => "Think step by step before answering. " ++ prompt
  | 10 => "Explain your reasoning clearly. " ++ prompt
  | _ => "Provide evidence for your claims. " ++ prompt

/-- GEPAOptimizer._mutate_prompt (gepa_optimizer.py lines 365-404): pick one
of the twelve templates at random and truncate to max_prompt_length. -/
def mutatePrompt (cfg : GEPAConfig) (prompt : String) (r : Rng) : String × Rng :=
  let c := r.nextChoice 12
  let mutation := mutationTemplate c.1 prompt
  (if cfg.max_prompt_length < mutation.length then mutation.take cfg.max_prompt_length
   else mutation, c.2)

/-- One iteration of the loop inside _mutate_module: with probability
mutation_strength rewrite this parameter. -/
def mutateStep (cfg : GEPAConfig) (strength : Q) (acc : BasePromptModule × Rng)
    (np : String × PromptParameter) : BasePromptModule × Rng :=
  let f := acc.2.nextFloat
  if Q.ltb f.1 strength then
    let mp := mutatePrompt cfg np.2.value f.2
    ((acc.1.updatePrompt np.1 mp.1 true).1, mp.2)
  else (acc.1, f.2)

/-- GEPAOptimizer._mutate_module (gepa_optimizer.py lines 345-363): for each
direct optimizable parameter, mutate it with probability strength (the
callers pass 0.5 for the initial population and config.mutation_rate
otherwise). -/
def mutateModule (cfg : GEPAConfig) (m : BasePromptModule) (strength : Q) (r : Rng) :
    BasePromptModule × Rng :=
  m.namedParametersNoRec.foldl (mutateStep cfg strength) (m, r)

/-- One iteration of the loop inside _crossover: if the parameter also
exists in parent2, take the parent2 value with probability one half. -/
def crossoverStep (p2 : BasePromptModule) (acc : BasePromptModule × Rng)
    (np : String × PromptParameter) : BasePromptModule × Rng :=
  match p2.namedParametersNoRec.find? (fun q => q.1 = np.1) with
  | some q2 =>
      let f := acc.2.nextFloat
      if Q.ltb f.1 ⟨1, 2⟩ then ((acc.1.updatePrompt np.1 q2.2.value true).1, f.2)
      else (acc.1, f.2)
  | none => acc

/-- GEPAOptimizer._crossover (gepa_optimizer.py lines 312-343): offspring is
a deep copy of parent1; each optimizable parameter present in both parents
takes the parent2 value with probability one half. -/
def crossover (p1 p2 : BasePromptModule) (r : Rng) : BasePromptModule × Rng :=
  p1.namedParametersNoRec.foldl (crossoverStep p2) (p1, r)

/-- Python max(indices, key=fitness): the first index among the given ones
whose score is maximal. -/
def argmaxFirst (scores : List Fit) : List Nat → Nat
  | [] => 0
  | i :: rest =>
      rest.foldl (fun b j => if fgt (scores.getD j none) (scores.getD b none) then j else b) i

/-- The tournament_selection closure inside _select_parents (gepa_optimizer.py
lines 289-298): sample min(tournament_size, n) indices and keep the fittest. -/
def tournamentSelect (cfg : GEPAConfig) (scores : List Fit) (n : Nat) (r : Rng) : Nat × Rng :=
  let s := r.nextSample n (min cfg.tournament_size n)
  (argmaxFirst scores s.1, s.2)

/-- The bounded retry loop of _select_parents (gepa_optimizer.py lines
304-308): while the two picks coincide and fewer than ten retries have
happened, pick parent2 again. -/
def retrySelect (cfg : GEPAConfig) (scores : List Fit) (n p1 : Nat) :
    Nat → Nat → Rng → Nat × Rng
  | 0, p2, r => (p2, r)
  | k + 1, p2, r =>
      if p1 = p2 then
        let t := tournamentSelect cfg scores n r
        retrySelect cfg scores n p1 k t.1 t.2
      else (p2, r)

/-- GEPAOptimizer._select_parents (gepa_optimizer.py lines 274-310), with
the object identity test parent1 == parent2 expressed as index equality
(all population members are distinct deep copies). -/
def selectParents (cfg : GEPAConfig) (scores : List Fit) (n : Nat) (r : Rng) :
    (Nat × Nat) × Rng :=
  let t1 := tournamentSelect cfg scores n r
  let t2 := tournamentSelect cfg scores n t1.2
  let t3 := retrySelect cfg scores n t1.1 10 t2.1 t2.2
  ((t1.1, t3.1), t3.2)

/-- GEPAOptimizer._collect_execution_traces (gepa_optimizer.py lines
444-481): builds three mock traces, reading the first yielded parameter
(next(iter(...)) raises on a module with no optimizable direct parameter)
and drawing one random execution time per trace. -/
def collectExecutionTraces (m : BasePromptModule) (r : Rng) : Except Unit Rng :=
  if m.namedParametersNoRec.isEmpty then .error () else .ok (r.skipFloats 3)

/-- The per-parameter reflection loop of _reflect_and_improve
(gepa_optimizer.py lines 432-440): call the adapter on the parameter value
and the current fitness and write the answer into the offspring.  The call
is not wrapped in any handler, so an adapter exception propagates. -/
def reflectParams (reflect : ReflectFn) (fit : Q) :
    List (String × PromptParameter) → BasePromptModule → Except Unit BasePromptModule
  | [], off => .ok off
  | (n, p) :: rest, off =>
      match reflect p.value fit with
      | .error e => .error e
      | .ok ip => reflectParams reflect fit rest ((off.updatePrompt n ip true).1)

/-- GEPAOptimizer._reflect_and_improve (gepa_optimizer.py lines 406-442):
evaluate the module (a bare await of evaluation_fn, not guarded by any
try block), collect mock traces, then run the reflection adapter over every
direct optimizable parameter of the module, writing into a copy. -/
def reflectAndImprove {Ex : Type} (evalFn : EvalFn Ex) (reflect : ReflectFn)
    (m : BasePromptModule) (calls : Nat) (r : Rng) :
    Except Unit (BasePromptModule × Nat × Rng) :=
  match evalFn m none with
  | .error e => .error e
  | .ok fit =>
      match collectExecutionTraces m r with
      | .error e => .error e
      | .ok r =>
          match reflectParams reflect fit m.namedParametersNoRec m with
          | .error e => .error e
          | .ok off => .ok (off, calls + 1, r)

/-- Evaluation over a list of task examples (the inner loop of
_evaluate_population, gepa_optimizer.py lines 203-207), counting the calls
made; the first exception aborts this individual. -/
def evalExamples {Ex : Type} (evalFn : EvalFn Ex) (m : BasePromptModule) :
    List Ex → Nat → Except Unit (List Q) × Nat
  | [], calls => (.ok [], calls)
  | ex :: rest, calls =>
      match evalFn m (some ex) with
      | .error e => (.error e, calls + 1)
      | .ok s =>
          match evalExamples evalFn m rest (calls + 1) with
          | (.ok ss, calls) => (.ok (s :: ss), calls)
          | (.error e, calls) => (.error e, calls)

/-- Fitness of one individual (the try block of _evaluate_population,
gepa_optimizer.py lines 199-216): averaged example scores, or a single
evaluation when no examples are given; any exception yields -inf. -/
def evaluateIndividual {Ex : Type} (evalFn : EvalFn Ex) (examples : List Ex)
    (m : BasePromptModule) (calls : Nat) : Fit × Nat :=
  match examples with
  | [] =>
      match evalFn m none with
      | .ok q => (some q, calls + 1)
      | .error _ => (none, calls + 1)
  | _ :: _ =>
      match evalExamples evalFn m examples calls with
      | (.ok ss, calls) => (some ((qsum ss).divN ss.length), calls)
      | (.error _, calls) => (none, calls)

/-- One iteration of the loop of _evaluate_population: append the fitness
of this individual and thread the call counter. -/
def evalStep {Ex : Type} (evalFn : EvalFn Ex) (examples : List Ex)
    (acc : List Fit × Nat) (ind : BasePromptModule) : List Fit × Nat :=
  ((acc.1 ++ [(evaluateIndividual evalFn examples ind acc.2).1]),
    (evaluateIndividual evalFn examples ind acc.2).2)

/-- GEPAOptimizer._evaluate_population (gepa_optimizer.py lines 180-218). -/
def evaluatePopulation {Ex : Type} (evalFn : EvalFn Ex) (examples : List Ex)
    (pop : List BasePromptModule) (calls : Nat) : List Fit × Nat :=
  pop.foldl (evalStep evalFn examples) ([], calls)

/-- Insert an index into a fitness-descending index list, after every index
of greater-or-equal score (stable descending insertion). -/
def insertIdxDesc (scores : List Fit) (i : Nat) : List Nat → List Nat
  | [] => [i]
  | j :: rest =>
      if fgt (scores.getD i none) (scores.getD j none) then i :: j :: rest
      else j :: insertIdxDesc scores i rest

/-- Python sorted(range(len(scores)), key=fitness, reverse=True): the index
list sorted by descending fitness, stable. -/
def sortIdxDesc (scores : List Fit) : List Nat :=
  (List.range scores.length).foldl (fun acc i => insertIdxDesc scores i acc) []

/-- The crossover stage for one offspring (gepa_optimizer.py lines
254-258): with probability crossover_rate cross the parents, else
deep-copy one parent chosen at random. -/
def crossoverStage (cfg : GEPAConfig) (parent1 parent2 : BasePromptModule) (r : Rng) :
    BasePromptModule × Rng :=
  let f1 := r.nextFloat
  if Q.ltb f1.1 cfg.crossover_rate then crossover parent1 parent2 f1.2
  else
    let c := f1.2.nextChoice 2
    (if c.1 = 0 then parent1 else parent2, c.2)

/-- The mutation stage for one offspring (gepa_optimizer.py lines
260-262): with probability mutation_rate mutate it (with the default
strength, which is mutation_rate again). -/
def mutationStage (cfg : GEPAConfig) (x : BasePromptModule × Rng) :
    BasePromptModule × Rng :=
  let f2 := x.2.nextFloat
  if Q.ltb f2.1 cfg.mutation_rate then mutateModule cfg x.1 cfg.mutation_rate f2.2
  else (x.1, f2.2)

/-- Parent selection followed by the crossover and mutation stages for one
offspring (gepa_optimizer.py lines 251-262). -/
def offspringCM (cfg : GEPAConfig) (pop : List BasePromptModule) (scores : List Fit)
    (r : Rng) : BasePromptModule × Rng :=
  let ps := selectParents cfg scores pop.length r
  mutationStage cfg
    (crossoverStage cfg (pop.getD ps.1.1 defaultModule) (pop.getD ps.1.2 defaultModule) ps.2)

/-- The offspring while-loop of _create_next_generation (gepa_optimizer.py
lines 250-270): produce one offspring per open slot, and with probability
0.3 replace it with its reflection improvement.  Fuel counts the open
slots; each pass appends exactly one offspring. -/
def fillOffspring {Ex : Type} (cfg : GEPAConfig) (reflect : ReflectFn) (evalFn : EvalFn Ex)
    (pop : List BasePromptModule) (scores : List Fit) :
    Nat → List BasePromptModule → Nat → Rng →
      Except Unit (List BasePromptModule × Nat × Rng)
  | 0, acc, calls, r => .ok (acc, calls, r)
  | k + 1, acc, calls, r =>
      let mu := offspringCM cfg pop scores r
      let f3 := mu.2.nextFloat
      if Q.ltb f3.1 ⟨3, 10⟩ then
        match reflectAndImprove evalFn reflect mu.1 calls f3.2 with
        | .error e => .error e
        | .ok ocr =>
            fillOffspring cfg reflect evalFn pop scores k (acc ++ [ocr.1]) ocr.2.1 ocr.2.2
      else fillOffspring cfg reflect evalFn pop scores k (acc ++ [mu.1]) calls f3.2

/-- GEPAOptimizer._create_next_generation (gepa_optimizer.py lines 220-272):
deep-copy the elitism_count fittest individuals, then fill the remaining
slots with offspring. -/
def createNextGeneration {Ex : Type} (cfg : GEPAConfig) (reflect : ReflectFn)
    (evalFn : EvalFn Ex) (pop : List BasePromptModule) (scores : List Fit)
    (calls : Nat) (r : Rng) : Except Unit (List BasePromptModule × Nat × Rng) :=
  let elite := (sortIdxDesc scores).take cfg.elitism_count
  let nextGen := elite.map (fun i => pop.getD i defaultModule)
  fillOffspring cfg reflect evalFn pop scores (cfg.population_size - nextGen.length)
    nextGen calls r

/-- The variation loop of _create_initial_population (gepa_optimizer.py
lines 173-176): append population_size - 1 copies of the root, each mutated
once with strength 0.5. -/
def initVariants (cfg : GEPAConfig) (m : BasePromptModule) :
    Nat → List BasePromptModule → Rng → List BasePromptModule × Rng
  | 0, acc, r => (acc, r)
  | k + 1, acc, r =>
      let v := mutateModule cfg m ⟨1, 2⟩ r
      initVariants cfg m k (acc ++ [v.1]) v.2

/-- GEPAOptimizer._create_initial_population (gepa_optimizer.py lines
157-178): the unmutated deep copy of the root first, then the mutated
variants. -/
def createInitialPopulation (cfg : GEPAConfig) (m : BasePromptModule) (r : Rng) :
    List BasePromptModule × Rng :=
  initVariants cfg m (cfg.population_size - 1) [m] r

/-- GEPAOptimizer._check_convergence (gepa_optimizer.py lines 483-506),
called with self.generation and the already-updated self.best_fitness:
false for fewer than two scores or at generation zero, else the comparison
abs(current_best - best_fitness) < convergence_threshold, which is false
whenever either operand is non-finite. -/
def checkConvergence (cfg : GEPAConfig) (generation : Nat) (scores : List Fit)
    (bestFitness : Fit) : Bool :=
  if scores.length < 2 then false
  else
    let currentBest := listMax scores
    if generation = 0 then false
    else
      match currentBest, bestFitness with
      | some c, some b => Q.ltb (Q.qabs (Q.sub c b)) cfg.convergence_threshold
      | _, _ => false

/-- One per-generation statistics record appended to
self.optimization_history (gepa_optimizer.py lines 139-144). -/
structure GenStat where
  generation : Nat
  best_fitness : Fit
  avg_fitness : Fit
  population_size : Nat
deriving DecidableEq, Repr

/-- Result of one optimize_module call: the returned best individual, the
recorded per-generation history, the number of evaluation-function calls
made, and the final tracked self.best_fitness (as exposed by
get_optimization_stats). -/
structure RunResult where
  best : BasePromptModule
  history : List GenStat
  evalCalls : Nat
  bestFitness : Fit

/-- Data computed by the body of one generation (gepa_optimizer.py lines
126-144): the fitness scores, the evaluation-call count, the updated
best-ever fitness and individual, and the statistics record appended to
the history. -/
structure StepData where
  scores : List Fit
  calls : Nat
  bestFit : Fit
  bestInd : BasePromptModule
  stat : GenStat

/-- The evaluation-and-tracking part of one generation (gepa_optimizer.py
lines 126-144): evaluate the population, find the first index of the
maximum fitness, replace the best-ever individual exactly on strict
improvement, and build the statistics record. -/
def genStep {Ex : Type} (evalFn : EvalFn Ex) (examples : List Ex) (gen : Nat)
    (pop : List BasePromptModule) (bestFit : Fit) (bestInd : BasePromptModule)
    (calls : Nat) : StepData :=
  let ev := evaluatePopulation evalFn examples pop calls
  let currentBest := listMax ev.1
  { scores := ev.1
    calls := ev.2
    bestFit := fmaxA bestFit currentBest
    bestInd :=
      if fgt currentBest bestFit then pop.getD (idxOfVal currentBest ev.1) defaultModule
      else bestInd
    stat := ⟨gen, currentBest, favg ev.1, pop.length⟩ }

/-- The generation loop of optimize_module (gepa_optimizer.py lines
122-153): evaluate and track via genStep, record statistics, stop on
convergence (checked against the already-updated best fitness), else build
the next generation.  Fuel is the number of remaining generations; an empty
population makes max(fitness_scores) raise in the source, modelled by an
error. -/
def optLoop {Ex : Type} (cfg : GEPAConfig) (reflect : ReflectFn) (evalFn : EvalFn Ex)
    (examples : List Ex) :
    Nat → Nat → List BasePromptModule → Fit → BasePromptModule → List GenStat →
      Nat → Rng → Except Unit RunResult
  | 0, _, _, bestFit, bestInd, hist, calls, _ => .ok ⟨bestInd, hist, calls, bestFit⟩
  | fuel + 1, gen, pop, bestFit, bestInd, hist, calls, r =>
      let s := genStep evalFn examples gen pop bestFit bestInd calls
      if s.scores.isEmpty then .error ()
      else if checkConvergence cfg gen s.scores s.bestFit then
        .ok ⟨s.bestInd, hist ++ [s.stat], s.calls, s.bestFit⟩
      else
        match createNextGeneration cfg reflect evalFn pop s.scores s.calls r with
        | .error e => .error e
        | .ok nxt =>
            optLoop cfg reflect evalFn examples fuel (gen + 1) nxt.1 s.bestFit s.bestInd
              (hist ++ [s.stat]) nxt.2.1 nxt.2.2

/-- GEPAOptimizer.optimize_module (gepa_optimizer.py lines 91-155): return
the module untouched when learning is disabled; otherwise reset the
per-call state, build the initial population, initialize the best
individual as a deep copy of its first member, and run the loop. -/
def optimizeModule {Ex : Type} (cfg : GEPAConfig) (reflect : ReflectFn) (evalFn : EvalFn Ex)
    (examples : List Ex) (m : BasePromptModule) (r : Rng) : Except Unit RunResult :=
  if m.learningEnabled then
    let pr := createInitialPopulation cfg m r
    optLoop cfg reflect evalFn examples cfg.generations 0 pr.1 none
      (pr.1.headD defaultModule) [] 0 pr.2
  else .ok ⟨m, [], 0, none⟩

/-- Observation: the recorded best_fitness entries of a completed run. -/
def okHistBests (r : Except Unit RunResult) : Option (List Fit) :=
  match r with
  | .ok x => some (x.history.map (fun g => g.best_fitness))
  | .error _ => none

/-- Observation: the evaluation-call count of a completed run. -/
def okEvalCalls (r : Except Unit RunResult) : Option Nat :=
  match r with
  | .ok x => some x.evalCalls
  | .error _ => none

/-- Observation: a prompt value of the returned module of a completed run. -/
def okBestVal (r : Except Unit RunResult) (n : String) : Option (Option String) :=
  match r with
  | .ok x => some (x.best.getPrompt n)
  | .error _ => none

/-- Observation: whether the run raised. -/
def isErr (r : Except Unit RunResult) : Bool :=
  match r with
  | .error _ => true
  | .ok _ => false

/-- The name and state of every registered parameter, in order. -/
def nameStates (m : BasePromptModule) : List (String × ParameterState) :=
  m.params.map (fun p => (p.name, p.state))

/-- The registered parameters that are not ACTIVE (frozen, inactive or
archived), as full records, in order. -/
def nonActives (m : BasePromptModule) : List PromptParameter :=
  m.params.filter (fun p => p.state != ParameterState.active)

/-- The names of the direct optimizable parameters. -/
def activeNames (m : BasePromptModule) : List String :=
  (m.params.filter (fun p => p.isOptimizable)).map (fun p => p.name)

/-- Relation between the root module of a run and any module value the
optimizer derives from it: the submodule tree is untouched, every parameter
keeps its name and state, and every non-ACTIVE parameter is untouched as a
whole record. -/
def okm (m x : BasePromptModule) : Prop :=
  x.subs = m.subs ∧ nameStates x = nameStates m ∧ nonActives x = nonActives m

/- Concrete instances used by the counterexample and witness theorems. -/

/-- Random oracle with constant streams. -/
def rngOf (f : Q) (smp : List Nat) : Rng := ⟨fun _ => f, fun _ => 0, fun _ => smp, 0, 0, 0⟩

/-- Every random.random() draw is one half, every choice picks index zero. -/
def rngHalf : Rng := rngOf ⟨1, 2⟩ [0]

/-- Every random.random() draw is zero; samples enumerate 0, 1. -/
def rngZero2 : Rng := rngOf ⟨0, 1⟩ [0, 1]

/-- Every random.random() draw is zero. -/
def rngZero1 : Rng := rngOf ⟨0, 1⟩ [0]

/-- Every random.random() draw is one. -/
def rngOne1 : Rng := rngOf ⟨1, 1⟩ [0]

/-- A learning-enabled module with one active parameter p valued P. -/
def mP : BasePromptModule := .mk true [⟨"p", "P", .active, 0⟩] []

/-- A learning-disabled module with one active parameter. -/
def mDis : BasePromptModule := .mk false [⟨"p", "P", .active, 0⟩] []

/-- A learning-enabled module with a frozen parameter f and an active
parameter p. -/
def mFr : BasePromptModule :=
  .mk true [⟨"f", "F", .frozen, 0⟩, ⟨"p", "P", .active, 0⟩] []

/-- No task examples (task_examples=None). -/
def noEx : List Unit := []

/-- A reflection adapter that returns the prompt unchanged. -/
def reflectNoop : ReflectFn := fun p _ => .ok p

/-- A reflection adapter that always raises. -/
def reflectRaise : ReflectFn := fun _ _ => .error ()

/-- An evaluation function that always raises. -/
def evalRaise : EvalFn Unit := fun _ _ => .error ()

/-- An evaluation function returning the constant zero. -/
def evalZero : EvalFn Unit := fun _ _ => .ok ⟨0, 1⟩

/-- Evaluation function scoring one exactly when parameter p was rewritten
away from its original value P. -/
def evalNotP : EvalFn Unit :=
  fun m _ => .ok (if m.getPrompt ("p") = some ("P") then ⟨0, 1⟩ else ⟨1, 1⟩)

/-- Evaluation function scoring one exactly when parameter p still has its
original value P. -/
def evalIsP : EvalFn Unit :=
  fun m _ => .ok (if m.getPrompt ("p") = some ("P") then ⟨1, 1⟩ else ⟨0, 1⟩)

/-- Config for the convergence counterexample: two individuals, five
generations, certain mutation, no crossover, no elites. -/
def cfgC1 : GEPAConfig :=
  { population_size := 2, generations := 5, mutation_rate := ⟨1, 1⟩,
    crossover_rate := ⟨0, 1⟩, tournament_size := 1, elitism_count := 0 }

/-- Config with two individuals, one generation, no elites, remaining
fields at their defaults. -/
def cfgG1 : GEPAConfig := { population_size := 2, generations := 1, elitism_count := 0 }

/-- Config with two individuals and zero generations. -/
def cfgG0 : GEPAConfig := { population_size := 2, generations := 0 }

/-- Config for the history counterexample: a single individual, two
generations, certain mutation, no crossover, no elites. -/
def cfgC6 : GEPAConfig :=
  { population_size := 1, generations := 2, mutation_rate := ⟨1, 1⟩,
    crossover_rate := ⟨0, 1⟩, tournament_size := 1, elitism_count := 0 }

/-- Config for the freeze-invariant witness run: a single individual, one
generation, no elites. -/
def cfgC7 : GEPAConfig :=
  { population_size := 1, generations := 1, elitism_count := 0, tournament_size := 1 }

/-- Config for the population-size witness: two individuals, both kept as
elites. -/
def cfgC8 : GEPAConfig := { population_size := 2, elitism_count := 2 }

/-- Leaf module of the depth-two tree, holding parameter p. -/
def mB : BasePromptModule := .mk true [⟨"p", "old", .active, 0⟩] []

/-- Middle module of the depth-two tree, owning b. -/
def mA : BasePromptModule := .mk true [] [("b", mB)]

/-- Root of the depth-two tree, owning a. -/
def mDeep : BasePromptModule := .mk true [] [("a", mA)]

/-- A prompt dict addressing the depth-two parameter a.b.p. -/
def dDeep : List (String × String) := [("a.b.p", "new")]

/- Theorems.  General lemmas come first, then one theorem per claim (with a
witness where the theorem has hypotheses). -/

/-- The variant loop of the initial population only appends to its
accumulator. -/
theorem initVariants_exists_append (cfg : GEPAConfig) (m : BasePromptModule) :
    ∀ (k : Nat) (acc : List BasePromptModule) (r : Rng),
      ∃ l, (initVariants cfg m k acc r).1 = acc ++ l := by
  intro k
  induction k with
  | zero => intro acc r; exact ⟨[], by simp [initVariants]⟩
  | succ n ih =>
      intro acc r
      obtain ⟨l, hl⟩ :=
        ih (acc ++ [(mutateModule cfg m ⟨1, 2⟩ r).1]) (mutateModule cfg m ⟨1, 2⟩ r).2
      exact ⟨(mutateModule cfg m ⟨1, 2⟩ r).1 :: l, by simp [initVariants, hl]⟩

/-- The first member of the initial population is the unmutated root. -/
theorem createInitialPopulation_headD (cfg : GEPAConfig) (m : BasePromptModule) (r : Rng) :
    (createInitialPopulation cfg m r).1.headD defaultModule = m := by
  unfold createInitialPopulation
  obtain ⟨l, hl⟩ := initVariants_exists_append cfg m (cfg.population_size - 1) [m] r
  simp [hl]

/-- The generation loop only appends to the history, and the best-ever
fitness it returns is the strict-improvement fold of the appended
per-generation best values over the incoming one. -/
theorem optLoop_history_spec {Ex : Type} (cfg : GEPAConfig) (reflect : ReflectFn)
    (evalFn : EvalFn Ex) (examples : List Ex) :
    ∀ (fuel gen : Nat) (pop : List BasePromptModule) (bestFit : Fit)
      (bestInd : BasePromptModule) (hist : List GenStat) (calls : Nat) (r : Rng)
      (res : RunResult),
      optLoop cfg reflect evalFn examples fuel gen pop bestFit bestInd hist calls r
        = .ok res →
      ∃ t, res.history = hist ++ t ∧
        res.bestFitness = t.foldl (fun acc g => fmaxA acc g.best_fitness) bestFit := by
  intro fuel
  induction fuel with
  | zero =>
      intro gen pop bestFit bestInd hist calls r res h
      simp only [optLoop] at h
      cases h
      exact ⟨[], by simp, rfl⟩
  | succ n ih =>
      intro gen pop bestFit bestInd hist calls r res h
      simp only [optLoop] at h
      split at h
      · exact absurd h (by simp)
      · split at h
        · cases h
          refine ⟨[(genStep evalFn examples gen pop bestFit bestInd calls).stat], rfl, ?_⟩
          simp [genStep, fmaxA]
        · split at h
          · exact absurd h (by simp)
          · obtain ⟨t, ht, hb⟩ := ih _ _ _ _ _ _ _ _ h
            refine ⟨(genStep evalFn examples gen pop bestFit bestInd calls).stat :: t,
              by simp [ht], ?_⟩
            rw [hb]
            simp only [List.foldl_cons]
            congr 1

/-- Claim C6 (amended): the per-generation best_fitness recorded in the
history is the maximum fitness of that generation and may decrease; what is
monotone is the tracked best-ever fitness, which on every completed run
equals the fold of the strict-improvement update (the running maximum) of
the recorded per-generation best values, starting from -inf. -/
theorem C6_best_ever_is_running_max_of_history {Ex : Type} (cfg : GEPAConfig)
    (reflect : ReflectFn) (evalFn : EvalFn Ex) (examples : List Ex)
    (m : BasePromptModule) (r : Rng) (res : RunResult)
    (h : optimizeModule cfg reflect evalFn examples m r = .ok res) :
    res.bestFitness = res.history.foldl (fun acc g => fmaxA acc g.best_fitness) none := by
  unfold optimizeModule at h
  split at h
  · obtain ⟨t, ht, hb⟩ := optLoop_history_spec cfg reflect evalFn examples _ _ _ _ _ _ _ _ _ h
    rw [ht, hb]
    simp
  · cases h
    rfl

/-- Witness for C6 (amended): the concrete one-generation run on the module
with a frozen and an active parameter completes, and the theorem applies to
it. -/
theorem C6_best_ever_is_running_max_of_history_witness :
    optimizeModule cfgC7 reflectNoop evalZero noEx mFr rngOne1
      = .ok ⟨mFr, [⟨0, some ⟨0, 1⟩, some ⟨0, 1⟩, 1⟩], 1, some ⟨0, 1⟩⟩ ∧
    (⟨mFr, [⟨0, some ⟨0, 1⟩, some ⟨0, 1⟩, 1⟩], 1, some ⟨0, 1⟩⟩ : RunResult).bestFitness
      = (⟨mFr, [⟨0, some ⟨0, 1⟩, some ⟨0, 1⟩, 1⟩], 1, some ⟨0, 1⟩⟩ : RunResult).history.foldl
          (fun acc g => fmaxA acc g.best_fitness) none :=
  ⟨rfl, C6_best_ever_is_running_max_of_history cfgC7 reflectNoop evalZero noEx mFr rngOne1
    _ rfl⟩

/-- Claim C6 (counterexample): a complete run of the optimizer on a
one-parameter module, with population 1, two generations, certain mutation
and an evaluation that scores the original prompt 1 and anything else 0,
records the best-fitness sequence 1, 0 in its per-generation history: the
recorded sequence strictly decreases, refuting the claim that it is
non-decreasing in every run. -/
theorem C6_recorded_best_fitness_can_decrease :
    okHistBests (optimizeModule cfgC6 reflectNoop evalIsP noEx mP rngHalf)
      = some [some ⟨1, 1⟩, some ⟨0, 1⟩] ∧
    fgt (some ⟨1, 1⟩) (some ⟨0, 1⟩) = true := by decide

/-- Claim C5 (amended): with generations = 0 the loop body never runs, so
optimize_module performs no evaluation at all, records no history, and
returns (a deep copy of) the first, unmutated member of the initial
population, i.e. the clone of the input module; no next-generation step
occurs.  (The original claim said the initial population is evaluated and
its best member returned.) -/
theorem C5_zero_generations_returns_unmutated_clone {Ex : Type} (cfg : GEPAConfig)
    (reflect : ReflectFn) (evalFn : EvalFn Ex) (examples : List Ex)
    (m : BasePromptModule) (r : Rng)
    (hle : m.learningEnabled = true) (hg : cfg.generations = 0) :
    optimizeModule cfg reflect evalFn examples m r = .ok ⟨m, [], 0, none⟩ := by
  unfold optimizeModule
  rw [hle, hg]
  simp only [optLoop, if_true]
  rw [createInitialPopulation_headD]

/-- Witness for C5 (amended), at a concrete zero-generation configuration. -/
theorem C5_zero_generations_returns_unmutated_clone_witness :
    mP.learningEnabled = true ∧ cfgG0.generations = 0 ∧
    optimizeModule cfgG0 reflectNoop evalZero noEx mP rngZero1 = .ok ⟨mP, [], 0, none⟩ :=
  ⟨rfl, rfl,
    C5_zero_generations_returns_unmutated_clone cfgG0 reflectNoop evalZero noEx mP rngZero1
      rfl rfl⟩

/-- Claim C5 (counterexample): with generations = 0 and population 2 the
run makes zero evaluation calls (so the initial population is not
evaluated) and returns the unmutated clone valued P, even though the
initial population contains a mutated member that the supplied evaluation
function scores strictly higher (1 against 0): the returned member is not
the best member of the initial population under the evaluation function. -/
theorem C5_zero_generations_no_evaluation :
    okEvalCalls (optimizeModule cfgG0 reflectNoop evalNotP noEx mP rngZero1) = some 0 ∧
    okBestVal (optimizeModule cfgG0 reflectNoop evalNotP noEx mP rngZero1) ("p")
      = some (some ("P")) ∧
    (createInitialPopulation cfgG0 mP rngZero1).1.length = 2 ∧
    (evalNotP ((createInitialPopulation cfgG0 mP rngZero1).1.getD 1 defaultModule)
        none).toOption = some ⟨1, 1⟩ ∧
    (evalNotP mP none).toOption = some ⟨0, 1⟩ := by decide

/-- Claim C1: the convergence check is made against the already-updated
best-ever fitness, not the best-ever fitness prior to the generation.  In
this concrete run generation 0 has best fitness 0 and generation 1 has best
fitness 1, an improvement of 1, far above the threshold 1/100; the claim
says the run must not stop there, yet the optimizer stops: the recorded
history has exactly the two generations although five were configured. -/
theorem C1_stops_despite_improvement_above_threshold :
    okHistBests (optimizeModule cfgC1 reflectNoop evalNotP noEx mP rngHalf)
      = some [some ⟨0, 1⟩, some ⟨1, 1⟩] ∧
    cfgC1.generations = 5 ∧
    Q.ltb (Q.qabs (Q.sub ⟨1, 1⟩ ⟨0, 1⟩)) cfgC1.convergence_threshold = false := by decide

/-- Claim C2: an evaluation function that always raises does not make
optimize_module return the initial clone: the unguarded evaluation call
inside _reflect_and_improve propagates the exception and the whole run
raises (first conjunct), even though the evaluation pass over the
population does catch the same exception and maps it to -inf fitness
(second conjunct). -/
theorem C2_optimize_raises_when_reflection_evaluates :
    isErr (optimizeModule cfgG1 reflectNoop evalRaise noEx mP rngZero2) = true ∧
    (evaluatePopulation evalRaise noEx [mP] 0).1 = [none] := by decide

/-- Claim C3: a reflection-adapter failure is not caught per call: with an
adapter that raises, the whole run raises (first conjunct), while the
identical run with an adapter that returns the prompt unchanged completes
(second conjunct) — so the abort is caused precisely by the adapter
exception propagating out of _reflect_and_improve. -/
theorem C3_reflection_failure_aborts_run :
    isErr (optimizeModule cfgG1 reflectRaise evalZero noEx mP rngZero2) = true ∧
    isErr (optimizeModule cfgG1 reflectNoop evalZero noEx mP rngZero2) = false := by decide

/-- Claim C4: the round-trip law fails on a tree nested two submodule
levels deep.  The dict D = [a.b.p -> new] is structurally compatible with
the tree (its key set is exactly the key set the tree exports), but
load_prompt_dict hands the group to the child with recurse=False, which
drops the still-dotted key b.p, so the subsequent export returns the old
value instead of D. -/
theorem C4_roundtrip_fails_at_depth_two :
    (mDeep.loadPromptDict dDeep).getPromptDict = [("a.b.p", "old")] ∧
    dDeep = [("a.b.p", "new")] ∧
    mDeep.getPromptDict = [("a.b.p", "old")] := by decide

/-- Claim C10: when learning is disabled on the root module,
optimize_module returns the module itself (in the model: the very value
passed in, with no clone made), with no evaluation call and no generation
of search recorded. -/
theorem C10_disabled_learning_returns_module {Ex : Type} (cfg : GEPAConfig)
    (reflect : ReflectFn) (evalFn : EvalFn Ex) (examples : List Ex)
    (m : BasePromptModule) (r : Rng) (h : m.learningEnabled = false) :
    optimizeModule cfg reflect evalFn examples m r = .ok ⟨m, [], 0, none⟩ := by
  unfold optimizeModule
  rw [h]
  simp

/-- Witness for C10 at a concrete learning-disabled module. -/
theorem C10_disabled_learning_returns_module_witness :
    mDis.learningEnabled = false ∧
    optimizeModule cfgG1 reflectNoop evalZero noEx mDis rngZero1 = .ok ⟨mDis, [], 0, none⟩ :=
  ⟨rfl, C10_disabled_learning_returns_module cfgG1 reflectNoop evalZero noEx mDis rngZero1 rfl⟩

/-- Replacing the parameter list leaves the submodules in place. -/
theorem subs_withParams (m : BasePromptModule) (l : List PromptParameter) :
    (m.withParams l).subs = m.subs := by
  cases m
  rfl

/-- Replacing the parameter list installs exactly that list. -/
theorem params_withParams (m : BasePromptModule) (l : List PromptParameter) :
    (m.withParams l).params = l := by
  cases m
  rfl

/-- After updating a registered name, looking that name up yields the new
value. -/
theorem find?_map_update (name newPrompt : String) (b : Bool) :
    ∀ ps : List PromptParameter, ps.any (fun p => p.name == name) = true →
      (((ps.map (fun p =>
          if p.name == name then
            { p with value := newPrompt,
                     histCount := p.histCount + (if b then 1 else 0) }
          else p)).find? (fun p => p.name == name)).map (fun p => p.value))
        = some newPrompt := by
  intro ps
  induction ps with
  | nil => intro h; simp at h
  | cons p rest ih =>
      intro h
      by_cases hp : (p.name == name) = true
      · rw [List.map_cons, if_pos hp, List.find?_cons_of_pos]
        · rfl
        · simpa using hp
      · rw [List.map_cons, if_neg hp, List.find?_cons_of_neg]
        · refine ih ?_
          simpa [List.any_cons, hp] using h
        · exact hp

/-- Claim C9: update_prompt succeeds and overwrites the value of any
registered parameter regardless of its state — in particular a Frozen one:
the update path never consults the parameter state, so freezing blocks only
the enumeration used by the optimizer, not direct updates. -/
theorem C9_update_overwrites_frozen_parameter (m : BasePromptModule)
    (name newPrompt : String) (recordOpt : Bool)
    (h : m.hasPrompt name = true) :
    (m.updatePrompt name newPrompt recordOpt).2 = true ∧
    (m.updatePrompt name newPrompt recordOpt).1.getPrompt name = some newPrompt := by
  have hany : m.params.any (fun p => p.name == name) = true := h
  refine ⟨by simp [BasePromptModule.updatePrompt, hany], ?_⟩
  simp only [BasePromptModule.updatePrompt, hany, if_true]
  simp only [BasePromptModule.getPrompt, params_withParams]
  exact find?_map_update name newPrompt recordOpt m.params hany

/-- Witness for C9 at a concrete Frozen parameter. -/
theorem C9_update_overwrites_frozen_parameter_witness :
    mFr.hasPrompt ("f") = true ∧
    (mFr.params.find? (fun p => p.name == ("f"))).map (fun p => p.state)
      = some ParameterState.frozen ∧
    (mFr.updatePrompt ("f") ("NEW") true).2 = true ∧
    (mFr.updatePrompt ("f") ("NEW") true).1.getPrompt ("f") = some ("NEW") :=
  ⟨by decide, by decide,
    (C9_update_overwrites_frozen_parameter mFr ("f") ("NEW") true (by decide)).1,
    (C9_update_overwrites_frozen_parameter mFr ("f") ("NEW") true (by decide)).2⟩

/-- The variant loop adds exactly its counter to the accumulator length. -/
theorem initVariants_length (cfg : GEPAConfig) (m : BasePromptModule) :
    ∀ (k : Nat) (acc : List BasePromptModule) (r : Rng),
      (initVariants cfg m k acc r).1.length = acc.length + k := by
  intro k
  induction k with
  | zero => intro acc r; simp [initVariants]
  | succ n ih =>
      intro acc r
      rw [initVariants, ih]
      simp
      omega

/-- Stable descending insertion grows the list by one. -/
theorem insertIdxDesc_length (scores : List Fit) (i : Nat) :
    ∀ l : List Nat, (insertIdxDesc scores i l).length = l.length + 1 := by
  intro l
  induction l with
  | nil => rfl
  | cons j rest ih =>
      rw [insertIdxDesc]
      split
      · simp
      · simp [ih]

/-- Sorting the index list of the scores preserves its length. -/
theorem sortIdxDesc_length (scores : List Fit) :
    (sortIdxDesc scores).length = scores.length := by
  have key : ∀ (l : List Nat) (acc : List Nat),
      (l.foldl (fun a i => insertIdxDesc scores i a) acc).length = acc.length + l.length := by
    intro l
    induction l with
    | nil => intro acc; simp
    | cons i rest ih =>
        intro acc
        rw [List.foldl_cons, ih, insertIdxDesc_length]
        simp only [List.length_cons]
        omega
  unfold sortIdxDesc
  rw [key]
  simp

/-- Each successful pass of the offspring loop appends exactly one
offspring. -/
theorem fillOffspring_length {Ex : Type} (cfg : GEPAConfig) (reflect : ReflectFn)
    (evalFn : EvalFn Ex) (pop : List BasePromptModule) (scores : List Fit) :
    ∀ (k : Nat) (acc : List BasePromptModule) (calls : Nat) (r : Rng)
      (out : List BasePromptModule × Nat × Rng),
      fillOffspring cfg reflect evalFn pop scores k acc calls r = .ok out →
      out.1.length = acc.length + k := by
  intro k
  induction k with
  | zero =>
      intro acc calls r out h
      simp only [fillOffspring] at h
      cases h
      simp
  | succ n ih =>
      intro acc calls r out h
      simp only [fillOffspring] at h
      split at h
      · split at h
        · exact absurd h (by simp)
        · have := ih _ _ _ _ h
          simp at this
          omega
      · have := ih _ _ _ _ h
        simp at this
        omega

/-- Claim C8: the population size invariant.  For a configured population
size of at least one, the initial population has exactly that size, and
the next-generation step maps a population of that size (with matching
fitness list) to a population of exactly that size again. -/
theorem C8_population_size_invariant {Ex : Type} (cfg : GEPAConfig) (reflect : ReflectFn)
    (evalFn : EvalFn Ex) (m : BasePromptModule) (r : Rng)
    (pop : List BasePromptModule) (scores : List Fit) (calls : Nat) (r2 : Rng)
    (out : List BasePromptModule × Nat × Rng)
    (hP : 1 ≤ cfg.population_size)
    (hpop : pop.length = cfg.population_size)
    (hsc : scores.length = pop.length)
    (hng : createNextGeneration cfg reflect evalFn pop scores calls r2 = .ok out) :
    (createInitialPopulation cfg m r).1.length = cfg.population_size ∧
    out.1.length = cfg.population_size := by
  constructor
  · unfold createInitialPopulation
    rw [initVariants_length]
    simp
    omega
  · unfold createNextGeneration at hng
    have hlen := fillOffspring_length cfg reflect evalFn pop scores _ _ _ _ _ hng
    have htake : ((sortIdxDesc scores).take cfg.elitism_count).length
        = min cfg.elitism_count scores.length := by
      rw [List.length_take, sortIdxDesc_length]
    rw [List.length_map, htake] at hlen
    rw [hlen]
    omega

/-- Witness for C8: a concrete elites-only next-generation step together
with the initial population of the same configuration. -/
theorem C8_population_size_invariant_witness :
    1 ≤ cfgC8.population_size ∧ ([mP, mP] : List BasePromptModule).length
      = cfgC8.population_size ∧
    ([some ⟨0, 1⟩, some ⟨0, 1⟩] : List Fit).length = ([mP, mP] : List BasePromptModule).length ∧
    (createInitialPopulation cfgC8 mP rngZero1).1.length = cfgC8.population_size ∧
    ([mP, mP], 0, rngZero1).1.length = cfgC8.population_size :=
  ⟨by decide, by decide, by decide,
    (C8_population_size_invariant cfgC8 reflectNoop evalZero mP rngZero1 [mP, mP]
      [some ⟨0, 1⟩, some ⟨0, 1⟩] 0 rngZero1 ([mP, mP], 0, rngZero1)
      (by decide) (by decide) (by decide) rfl).1,
    (C8_population_size_invariant cfgC8 reflectNoop evalZero mP rngZero1 [mP, mP]
      [some ⟨0, 1⟩, some ⟨0, 1⟩] 0 rngZero1 ([mP, mP], 0, rngZero1)
      (by decide) (by decide) (by decide) rfl).2⟩

/-- A module is okm-related to itself. -/
theorem okm_refl (m : BasePromptModule) : okm m m := ⟨rfl, rfl, rfl⟩

/-- Equal name-state lists give equal name lists. -/
theorem names_eq_of_nameStates {x m : BasePromptModule} (h : nameStates x = nameStates m) :
    x.params.map (fun p => p.name) = m.params.map (fun p => p.name) := by
  have h2 := congrArg (List.map Prod.fst) h
  simpa [nameStates, List.map_map, Function.comp_def] using h2

/-- Equal name-state lists give equal optimizable-name lists. -/
theorem activeNames_eq_of_nameStates {x m : BasePromptModule}
    (h : nameStates x = nameStates m) : activeNames x = activeNames m := by
  have key : ∀ ps : List PromptParameter,
      (ps.filter (fun p => p.isOptimizable)).map (fun p => p.name)
        = ((ps.map (fun p => (p.name, p.state))).filter
            (fun ns => ns.2 == ParameterState.active)).map Prod.fst := by
    intro ps
    induction ps with
    | nil => rfl
    | cons p rest ih =>
        simp only [PromptParameter.isOptimizable] at ih ⊢
        by_cases hp : p.state = ParameterState.active
        · simp [hp, ih]
        · simp [hp, ih]
  unfold activeNames
  rw [key x.params, key m.params]
  unfold nameStates at h
  rw [h]

/-- Names yielded by the non-recursive enumeration are optimizable names. -/
theorem mem_activeNames_of_namedParametersNoRec {x : BasePromptModule}
    {np : String × PromptParameter} (h : np ∈ x.namedParametersNoRec) :
    np.1 ∈ activeNames x := by
  simp only [BasePromptModule.namedParametersNoRec, List.mem_map] at h
  obtain ⟨p, hp, rfl⟩ := h
  exact List.mem_map.2 ⟨p, hp, rfl⟩

/-- An optimizable name is a registered name. -/
theorem any_name_of_mem_activeNames {x : BasePromptModule} {name : String}
    (h : name ∈ activeNames x) : x.params.any (fun p => p.name == name) = true := by
  simp only [activeNames, List.mem_map] at h
  obtain ⟨p, hp, rfl⟩ := h
  exact List.any_eq_true.2 ⟨p, List.mem_of_mem_filter hp, by simp⟩

/-- With distinct names, the name of an optimizable parameter is not the
name of any non-ACTIVE parameter. -/
theorem nonactive_name_ne {x : BasePromptModule} {name : String}
    (hnd : (x.params.map (fun p => p.name)).Nodup)
    (hname : name ∈ activeNames x) :
    ∀ p ∈ x.params, p.state ≠ ParameterState.active → p.name ≠ name := by
  intro p hp hstate
  simp only [activeNames, List.mem_map] at hname
  obtain ⟨q, hq, rfl⟩ := hname
  have hqmem := List.mem_of_mem_filter hq
  have hqact : q.state = ParameterState.active := by
    have := (List.mem_filter.1 hq).2
    simpa [PromptParameter.isOptimizable] using this
  intro hpq
  have hne : p ≠ q := by
    intro hcon
    rw [hcon] at hstate
    exact hstate hqact
  exact hne (List.inj_on_of_nodup_map hnd hp hqmem hpq)

/-- An update keeps every name and state. -/
theorem nameStates_updateMap (name v : String) (b : Bool) (ps : List PromptParameter) :
    (ps.map (fun p =>
      if p.name == name then
        { p with value := v, histCount := p.histCount + (if b then 1 else 0) }
      else p)).map (fun p => (p.name, p.state))
    = ps.map (fun p => (p.name, p.state)) := by
  rw [List.map_map]
  refine List.map_congr_left ?_
  intro p _
  by_cases hp : p.name = name
  · simp [Function.comp_def, hp]
  · simp [Function.comp_def, hp]

/-- An update under a name that no non-ACTIVE parameter bears keeps the
non-ACTIVE parameters untouched. -/
theorem filter_updateMap (name v : String) (b : Bool) :
    ∀ ps : List PromptParameter,
      (∀ p ∈ ps, p.state ≠ ParameterState.active → p.name ≠ name) →
      (ps.map (fun p =>
        if p.name == name then
          { p with value := v, histCount := p.histCount + (if b then 1 else 0) }
        else p)).filter (fun p => p.state != ParameterState.active)
      = ps.filter (fun p => p.state != ParameterState.active) := by
  intro ps
  induction ps with
  | nil => intro _; rfl
  | cons p rest ih =>
      intro hne
      have hrest := fun q hq => hne q (List.mem_cons_of_mem _ hq)
      have ih2 := ih hrest
      simp only [beq_iff_eq] at ih2
      by_cases hp : p.name = name
      · have hact : p.state = ParameterState.active := by
          by_contra hcon
          exact hne p (List.mem_cons_self _ _) hcon hp
        simp [hp, hact, ih2]
      · rw [List.map_cons, if_neg (by simp [hp]), List.filter_cons, List.filter_cons, ih hrest]

/-- update_prompt on an optimizable name preserves the okm relation. -/
theorem okm_updatePrompt {m x : BasePromptModule}
    (hnd : (m.params.map (fun p => p.name)).Nodup)
    (hok : okm m x) {name : String} (hname : name ∈ activeNames x)
    (v : String) (b : Bool) :
    okm m ((x.updatePrompt name v b).1) := by
  obtain ⟨hs, hns, hna⟩ := hok
  have hndx : (x.params.map (fun p => p.name)).Nodup := by
    rw [names_eq_of_nameStates hns]
    exact hnd
  have hany := any_name_of_mem_activeNames hname
  unfold BasePromptModule.updatePrompt
  rw [if_pos hany]
  refine ⟨?_, ?_, ?_⟩
  · rw [subs_withParams]
    exact hs
  · unfold nameStates
    rw [params_withParams, nameStates_updateMap]
    exact hns
  · unfold nonActives
    rw [params_withParams, filter_updateMap _ _ _ _ (nonactive_name_ne hndx hname)]
    exact hna

/-- The per-parameter mutation fold preserves the okm relation. -/
theorem okm_mutateFold (cfg : GEPAConfig) (s : Q) {m : BasePromptModule}
    (hnd : (m.params.map (fun p => p.name)).Nodup) :
    ∀ (l : List (String × PromptParameter)) (x : BasePromptModule) (r : Rng),
      okm m x → (∀ np ∈ l, np.1 ∈ activeNames m) →
      okm m ((l.foldl (mutateStep cfg s) (x, r)).1) := by
  intro l
  induction l with
  | nil => intro x r hok _; simpa using hok
  | cons np rest ih =>
      intro x r hok hl
      rw [List.foldl_cons]
      have hstep : okm m ((mutateStep cfg s (x, r) np).1) := by
        unfold mutateStep
        dsimp only
        split
        · exact okm_updatePrompt hnd hok
            (by rw [activeNames_eq_of_nameStates hok.2.1]
                exact hl np (List.mem_cons_self _ _)) _ _
        · exact hok
      exact ih _ _ hstep (fun q hq => hl q (List.mem_cons_of_mem _ hq))

/-- _mutate_module preserves the okm relation. -/
theorem okm_mutateModule (cfg : GEPAConfig) (s : Q) {m x : BasePromptModule}
    (hnd : (m.params.map (fun p => p.name)).Nodup)
    (hok : okm m x) (r : Rng) : okm m ((mutateModule cfg x s r).1) := by
  unfold mutateModule
  apply okm_mutateFold cfg s hnd _ _ _ hok
  intro np hnp
  rw [← activeNames_eq_of_nameStates hok.2.1]
  exact mem_activeNames_of_namedParametersNoRec hnp

/-- The per-parameter crossover fold preserves the okm relation. -/
theorem okm_crossoverFold (p2 : BasePromptModule) {m : BasePromptModule}
    (hnd : (m.params.map (fun p => p.name)).Nodup) :
    ∀ (l : List (String × PromptParameter)) (x : BasePromptModule) (r : Rng),
      okm m x → (∀ np ∈ l, np.1 ∈ activeNames m) →
      okm m ((l.foldl (crossoverStep p2) (x, r)).1) := by
  intro l
  induction l with
  | nil => intro x r hok _; simpa using hok
  | cons np rest ih =>
      intro x r hok hl
      rw [List.foldl_cons]
      have hstep : okm m ((crossoverStep p2 (x, r) np).1) := by
        unfold crossoverStep
        dsimp only
        split
        · split
          · exact okm_updatePrompt hnd hok
              (by rw [activeNames_eq_of_nameStates hok.2.1]
                  exact hl np (List.mem_cons_self _ _)) _ _
          · exact hok
        · exact hok
      exact ih _ _ hstep (fun q hq => hl q (List.mem_cons_of_mem _ hq))

/-- _crossover preserves the okm relation (the offspring starts from
parent1). -/
theorem okm_crossover {m p1 : BasePromptModule} (p2 : BasePromptModule)
    (hnd : (m.params.map (fun p => p.name)).Nodup)
    (h1 : okm m p1) (r : Rng) : okm m ((crossover p1 p2 r).1) := by
  unfold crossover
  apply okm_crossoverFold p2 hnd _ _ _ h1
  intro np hnp
  rw [← activeNames_eq_of_nameStates h1.2.1]
  exact mem_activeNames_of_namedParametersNoRec hnp

/-- The crossover stage preserves the okm relation. -/
theorem okm_crossoverStage (cfg : GEPAConfig) {m p1 p2 : BasePromptModule}
    (hnd : (m.params.map (fun p => p.name)).Nodup)
    (h1 : okm m p1) (h2 : okm m p2) (r : Rng) :
    okm m ((crossoverStage cfg p1 p2 r).1) := by
  unfold crossoverStage
  dsimp only
  split
  · exact okm_crossover p2 hnd h1 _
  · dsimp only
    split
    · exact h1
    · exact h2

/-- The mutation stage preserves the okm relation. -/
theorem okm_mutationStage (cfg : GEPAConfig) {m : BasePromptModule}
    (hnd : (m.params.map (fun p => p.name)).Nodup)
    {x : BasePromptModule × Rng} (h : okm m x.1) :
    okm m ((mutationStage cfg x).1) := by
  unfold mutationStage
  dsimp only
  split
  · exact okm_mutateModule cfg _ hnd h _
  · exact h

/-- The scan inside Python max keeps an element of b :: l. -/
theorem foldl_pick_mem (scores : List Fit) :
    ∀ (l : List Nat) (b : Nat),
      l.foldl (fun b j => if fgt (scores.getD j none) (scores.getD b none) then j else b) b
        ∈ b :: l := by
  intro l
  induction l with
  | nil => intro b; simp
  | cons j rest ih =>
      intro b
      rw [List.foldl_cons]
      rcases List.mem_cons.1
          (ih (if fgt (scores.getD j none) (scores.getD b none) then j else b)) with h | h
      · rw [h]
        split
        · simp
        · simp
      · exact List.mem_cons_of_mem _ (List.mem_cons_of_mem _ h)

/-- argmaxFirst over in-range indices is in range. -/
theorem argmaxFirst_lt (scores : List Fit) {n : Nat} (hn : 0 < n) (l : List Nat)
    (hl : ∀ x ∈ l, x < n) : argmaxFirst scores l < n := by
  cases l with
  | nil => simpa [argmaxFirst] using hn
  | cons i rest =>
      have := foldl_pick_mem scores rest i
      exact hl _ (by simpa [argmaxFirst] using this)

/-- A tournament pick is a valid population index. -/
theorem tournamentSelect_lt (cfg : GEPAConfig) (scores : List Fit) {n : Nat}
    (hn : 0 < n) (r : Rng) : (tournamentSelect cfg scores n r).1 < n := by
  unfold tournamentSelect
  apply argmaxFirst_lt scores hn
  intro x hx
  simp only [Rng.nextSample, List.mem_map] at hx
  obtain ⟨j, _, rfl⟩ := hx
  exact Nat.mod_lt _ hn

/-- The retry loop returns a valid population index. -/
theorem retrySelect_lt (cfg : GEPAConfig) (scores : List Fit) {n : Nat}
    (hn : 0 < n) (p1 : Nat) :
    ∀ (k p2 : Nat) (r : Rng), p2 < n → (retrySelect cfg scores n p1 k p2 r).1 < n := by
  intro k
  induction k with
  | zero => intro p2 r h; simpa [retrySelect] using h
  | succ kk ih =>
      intro p2 r h
      rw [retrySelect]
      split
      · exact ih _ _ (tournamentSelect_lt cfg scores hn r)
      · simpa using h

/-- Both selected parents are valid population indices. -/
theorem selectParents_lt (cfg : GEPAConfig) (scores : List Fit) {n : Nat}
    (hn : 0 < n) (r : Rng) :
    (selectParents cfg scores n r).1.1 < n ∧ (selectParents cfg scores n r).1.2 < n := by
  unfold selectParents
  exact ⟨tournamentSelect_lt cfg scores hn r,
    retrySelect_lt cfg scores hn _ _ _ _ (tournamentSelect_lt cfg scores hn _)⟩

/-- In-range getD with the placeholder default is list membership. -/
theorem getD_mem_of_lt {l : List BasePromptModule} {i : Nat} (h : i < l.length) :
    l.getD i defaultModule ∈ l := by
  rw [List.getD_eq_getElem l defaultModule h]
  exact List.getElem_mem h

/-- Producing one offspring by selection, crossover and mutation preserves
the okm relation. -/
theorem okm_offspringCM (cfg : GEPAConfig) {m : BasePromptModule}
    (hnd : (m.params.map (fun p => p.name)).Nodup)
    {pop : List BasePromptModule} (scores : List Fit) (r : Rng)
    (hpop : ∀ x ∈ pop, okm m x) (hne : pop ≠ []) :
    okm m ((offspringCM cfg pop scores r).1) := by
  unfold offspringCM
  dsimp only
  have hn : 0 < pop.length := List.length_pos.2 hne
  refine okm_mutationStage cfg hnd (okm_crossoverStage cfg hnd ?_ ?_ _)
  · exact hpop _ (getD_mem_of_lt (selectParents_lt cfg scores hn r).1)
  · exact hpop _ (getD_mem_of_lt (selectParents_lt cfg scores hn r).2)

/-- The reflection fold preserves the okm relation when it succeeds. -/
theorem okm_reflectParams (reflect : ReflectFn) (fit : Q) {m : BasePromptModule}
    (hnd : (m.params.map (fun p => p.name)).Nodup) :
    ∀ (l : List (String × PromptParameter)) (off : BasePromptModule),
      okm m off → (∀ np ∈ l, np.1 ∈ activeNames m) →
      ∀ res, reflectParams reflect fit l off = .ok res → okm m res := by
  intro l
  induction l with
  | nil =>
      intro off hok _ res h
      simp only [reflectParams] at h
      cases h
      exact hok
  | cons np rest ih =>
      intro off hok hl res h
      simp only [reflectParams] at h
      split at h
      · exact absurd h (by simp)
      · exact ih _
          (okm_updatePrompt hnd hok
            (by rw [activeNames_eq_of_nameStates hok.2.1]
                exact hl np (List.mem_cons_self _ _)) _ _)
          (fun q hq => hl q (List.mem_cons_of_mem _ hq)) res h

/-- _reflect_and_improve preserves the okm relation when it succeeds. -/
theorem okm_reflectAndImprove {Ex : Type} (evalFn : EvalFn Ex) (reflect : ReflectFn)
    {m x : BasePromptModule} (hnd : (m.params.map (fun p => p.name)).Nodup)
    (hok : okm m x) (calls : Nat) (r : Rng) (out : BasePromptModule × Nat × Rng)
    (h : reflectAndImprove evalFn reflect x calls r = .ok out) : okm m out.1 := by
  unfold reflectAndImprove at h
  split at h
  · exact absurd h (by simp)
  · split at h
    · exact absurd h (by simp)
    · split at h
      · exact absurd h (by simp)
      · rename_i heq
        cases h
        refine okm_reflectParams reflect _ hnd _ _ hok ?_ _ heq
        intro np hnp
        rw [← activeNames_eq_of_nameStates hok.2.1]
        exact mem_activeNames_of_namedParametersNoRec hnp

/-- The offspring loop preserves the okm relation for every member of the
produced population. -/
theorem okm_fillOffspring {Ex : Type} (cfg : GEPAConfig) (reflect : ReflectFn)
    (evalFn : EvalFn Ex) {m : BasePromptModule}
    (hnd : (m.params.map (fun p => p.name)).Nodup)
    {pop : List BasePromptModule} (scores : List Fit)
    (hpop : ∀ x ∈ pop, okm m x) (hne : pop ≠ []) :
    ∀ (k : Nat) (acc : List BasePromptModule) (calls : Nat) (r : Rng)
      (out : List BasePromptModule × Nat × Rng),
      (∀ x ∈ acc, okm m x) →
      fillOffspring cfg reflect evalFn pop scores k acc calls r = .ok out →
      ∀ x ∈ out.1, okm m x := by
  intro k
  induction k with
  | zero =>
      intro acc calls r out hacc h
      simp only [fillOffspring] at h
      cases h
      exact hacc
  | succ n ih =>
      intro acc calls r out hacc h
      simp only [fillOffspring] at h
      split at h
      · split at h
        · exact absurd h (by simp)
        · rename_i heq
          refine ih _ _ _ _ ?_ h
          intro x hx
          rcases List.mem_append.1 hx with hx | hx
          · exact hacc x hx
          · rw [List.mem_singleton.1 hx]
            exact okm_reflectAndImprove evalFn reflect hnd
              (okm_offspringCM cfg hnd scores r hpop hne) _ _ _ heq
      · refine ih _ _ _ _ ?_ h
        intro x hx
        rcases List.mem_append.1 hx with hx | hx
        · exact hacc x hx
        · rw [List.mem_singleton.1 hx]
          exact okm_offspringCM cfg hnd scores r hpop hne

/-- Every index in a descending insertion comes from the inserted index or
the old list. -/
theorem insertIdxDesc_mem (scores : List Fit) (i : Nat) :
    ∀ (l : List Nat) (j : Nat), j ∈ insertIdxDesc scores i l → j = i ∨ j ∈ l := by
  intro l
  induction l with
  | nil =>
      intro j hj
      simp only [insertIdxDesc, List.mem_singleton] at hj
      exact Or.inl hj
  | cons a rest ih =>
      intro j hj
      rw [insertIdxDesc] at hj
      split at hj
      · rcases List.mem_cons.1 hj with h | h
        · exact Or.inl h
        · exact Or.inr h
      · rcases List.mem_cons.1 hj with h | h
        · exact Or.inr (by simp [h])
        · rcases ih j h with h2 | h2
          · exact Or.inl h2
          · exact Or.inr (List.mem_cons_of_mem _ h2)

/-- Every index produced by the elitism sort is a valid score index. -/
theorem sortIdxDesc_lt (scores : List Fit) :
    ∀ j ∈ sortIdxDesc scores, j < scores.length := by
  have key : ∀ (l : List Nat) (acc : List Nat),
      (∀ x ∈ acc, x < scores.length) → (∀ x ∈ l, x < scores.length) →
      ∀ j ∈ l.foldl (fun a i => insertIdxDesc scores i a) acc, j < scores.length := by
    intro l
    induction l with
    | nil => intro acc hacc _ j hj; exact hacc j hj
    | cons i rest ih =>
        intro acc hacc hl j hj
        rw [List.foldl_cons] at hj
        refine ih _ ?_ (fun x hx => hl x (List.mem_cons_of_mem _ hx)) j hj
        intro x hx
        rcases insertIdxDesc_mem scores i acc x hx with h | h
        · rw [h]
          exact hl i (List.mem_cons_self _ _)
        · exact hacc x h
  intro j hj
  unfold sortIdxDesc at hj
  exact key _ [] (by simp) (fun x hx => List.mem_range.1 hx) j hj

/-- The evaluation fold adds one score per individual. -/
theorem evalFold_length {Ex : Type} (evalFn : EvalFn Ex) (examples : List Ex) :
    ∀ (pop : List BasePromptModule) (init : List Fit × Nat),
      (pop.foldl (evalStep evalFn examples) init).1.length
        = init.1.length + pop.length := by
  intro pop
  induction pop with
  | nil => intro init; simp
  | cons ind rest ih =>
      intro init
      rw [List.foldl_cons, ih]
      simp [evalStep]
      omega

/-- The fitness list has one entry per population member. -/
theorem evaluatePopulation_len {Ex : Type} (evalFn : EvalFn Ex) (examples : List Ex)
    (pop : List BasePromptModule) (calls : Nat) :
    (evaluatePopulation evalFn examples pop calls).1.length = pop.length := by
  unfold evaluatePopulation
  rw [evalFold_length]
  simp

/-- _create_next_generation preserves the okm relation for every member of
the produced population. -/
theorem okm_createNextGeneration {Ex : Type} (cfg : GEPAConfig) (reflect : ReflectFn)
    (evalFn : EvalFn Ex) {m : BasePromptModule}
    (hnd : (m.params.map (fun p => p.name)).Nodup)
    {pop : List BasePromptModule} {scores : List Fit} (calls : Nat) (r : Rng)
    (out : List BasePromptModule × Nat × Rng)
    (hpop : ∀ x ∈ pop, okm m x) (hne : pop ≠ []) (hsc : scores.length = pop.length)
    (h : createNextGeneration cfg reflect evalFn pop scores calls r = .ok out) :
    ∀ x ∈ out.1, okm m x := by
  unfold createNextGeneration at h
  refine okm_fillOffspring cfg reflect evalFn hnd scores hpop hne _ _ _ _ _ ?_ h
  intro x hx
  simp only [List.mem_map] at hx
  obtain ⟨i, hi, rfl⟩ := hx
  have hilt : i < scores.length := sortIdxDesc_lt scores i (List.mem_of_mem_take hi)
  exact hpop _ (getD_mem_of_lt (by omega))

/-- The Python max scan returns its start or a list element. -/
theorem foldl_fmaxA_mem : ∀ (l : List Fit) (acc : Fit),
    l.foldl fmaxA acc = acc ∨ l.foldl fmaxA acc ∈ l := by
  intro l
  induction l with
  | nil => intro acc; exact Or.inl rfl
  | cons x rest ih =>
      intro acc
      rw [List.foldl_cons]
      rcases ih (fmaxA acc x) with h | h
      · rw [h]
        unfold fmaxA
        split
        · exact Or.inr (List.mem_cons_self _ _)
        · exact Or.inl rfl
      · exact Or.inr (List.mem_cons_of_mem _ h)

/-- Python float equality is reflexive. -/
theorem feq_refl (v : Fit) : feq v v = true := by
  cases v with
  | none => rfl
  | some a => simp [feq, Q.qeq]

/-- list.index of a value present in the list is a valid index. -/
theorem idxOfVal_lt_of_mem {v : Fit} : ∀ {l : List Fit}, v ∈ l → idxOfVal v l < l.length := by
  intro l
  induction l with
  | nil => intro h; simp at h
  | cons x rest ih =>
      intro h
      rw [idxOfVal]
      split
      · simp
      · rename_i hne
        rcases List.mem_cons.1 h with h2 | h2
        · subst h2
          exact absurd (feq_refl v) hne
        · simpa using ih h2

/-- A fitness strictly above another is finite. -/
theorem fgt_some {x y : Fit} (h : fgt x y = true) : ∃ c, x = some c := by
  cases x with
  | none => simp [fgt] at h
  | some c => exact ⟨c, rfl⟩

/-- The tracked best individual after one generation satisfies the okm
relation. -/
theorem genStep_bestInd_okm {Ex : Type} (evalFn : EvalFn Ex) (examples : List Ex)
    (gen : Nat) {m : BasePromptModule} {pop : List BasePromptModule}
    (bestFit : Fit) {bestInd : BasePromptModule} (calls : Nat)
    (hpop : ∀ x ∈ pop, okm m x) (hbi : okm m bestInd) :
    okm m (genStep evalFn examples gen pop bestFit bestInd calls).bestInd := by
  unfold genStep
  dsimp only
  split
  · rename_i hf
    have hmem : listMax (evaluatePopulation evalFn examples pop calls).1
        ∈ (evaluatePopulation evalFn examples pop calls).1 := by
      rcases foldl_fmaxA_mem (evaluatePopulation evalFn examples pop calls).1 none with h | h
      · exfalso
        obtain ⟨c, hc⟩ := fgt_some hf
        have hnone : listMax (evaluatePopulation evalFn examples pop calls).1 = none := h
        rw [hnone] at hc
        cases hc
      · exact h
    have hidx := idxOfVal_lt_of_mem hmem
    have hlen := evaluatePopulation_len evalFn examples pop calls
    exact hpop _ (getD_mem_of_lt (by omega))
  · exact hbi

/-- The generation loop preserves the okm relation for the returned best
individual. -/
theorem okm_optLoop {Ex : Type} (cfg : GEPAConfig) (reflect : ReflectFn)
    (evalFn : EvalFn Ex) (examples : List Ex) {m : BasePromptModule}
    (hnd : (m.params.map (fun p => p.name)).Nodup) :
    ∀ (fuel gen : Nat) (pop : List BasePromptModule) (bestFit : Fit)
      (bestInd : BasePromptModule) (hist : List GenStat) (calls : Nat) (r : Rng)
      (res : RunResult),
      (∀ x ∈ pop, okm m x) → okm m bestInd →
      optLoop cfg reflect evalFn examples fuel gen pop bestFit bestInd hist calls r
        = .ok res →
      okm m res.best := by
  intro fuel
  induction fuel with
  | zero =>
      intro gen pop bestFit bestInd hist calls r res hpop hbi h
      simp only [optLoop] at h
      cases h
      exact hbi
  | succ n ih =>
      intro gen pop bestFit bestInd hist calls r res hpop hbi h
      simp only [optLoop] at h
      split at h
      · exact absurd h (by simp)
      · rename_i hne
        have hbi2 := genStep_bestInd_okm evalFn examples gen bestFit calls hpop hbi
        split at h
        · cases h
          exact hbi2
        · split at h
          · exact absurd h (by simp)
          · rename_i heq
            have hpne : pop ≠ [] := by
              intro hcon
              apply hne
              subst hcon
              simp [genStep, evaluatePopulation]
            refine ih _ _ _ _ _ _ _ _
              (okm_createNextGeneration cfg reflect evalFn hnd _ _ _ hpop hpne
                ?_ heq) hbi2 h
            show (genStep evalFn examples gen pop bestFit bestInd calls).scores.length
              = pop.length
            exact evaluatePopulation_len evalFn examples pop calls

/-- The initial-population loop preserves the okm relation. -/
theorem okm_initVariants (cfg : GEPAConfig) {m : BasePromptModule}
    (hnd : (m.params.map (fun p => p.name)).Nodup) :
    ∀ (k : Nat) (acc : List BasePromptModule) (r : Rng),
      (∀ x ∈ acc, okm m x) →
      ∀ x ∈ (initVariants cfg m k acc r).1, okm m x := by
  intro k
  induction k with
  | zero =>
      intro acc r hacc
      simpa [initVariants] using hacc
  | succ n ih =>
      intro acc r hacc
      rw [initVariants]
      refine ih _ _ ?_
      intro x hx
      rcases List.mem_append.1 hx with hx | hx
      · exact hacc x hx
      · rw [List.mem_singleton.1 hx]
        exact okm_mutateModule cfg ⟨1, 2⟩ hnd (okm_refl m) _

/-- A parameter yielded by parameters(recurse=False) is ACTIVE. -/
theorem state_active_of_mem_parametersDirect {m : BasePromptModule} {p : PromptParameter}
    (h : p ∈ m.parametersDirect) : p.state = ParameterState.active := by
  have := (List.mem_filter.1 h).2
  simpa [PromptParameter.isOptimizable] using this

/-- A parameter yielded by named_parameters(recurse=False) is ACTIVE. -/
theorem state_active_of_mem_noRec {x : BasePromptModule} {np : String × PromptParameter}
    (h : np ∈ x.namedParametersNoRec) : np.2.state = ParameterState.active := by
  simp only [BasePromptModule.namedParametersNoRec, List.mem_map] at h
  obtain ⟨p, hp, rfl⟩ := h
  have := (List.mem_filter.1 hp).2
  simpa [PromptParameter.isOptimizable] using this

/-- Claim C7: the freeze invariant.  First, parameters() (at any depth of
its unbounded unfolding) and named_parameters() yield only ACTIVE
parameters — Frozen, Inactive and Archived ones are never yielded.
Second, for any completed optimizer run on a root module with distinct
parameter names, the returned module has the submodule tree of the input
untouched and every non-ACTIVE (in particular every frozen) parameter
untouched as a whole record — its value is never changed by the run, even
though ACTIVE parameters of the same module are mutated. -/
theorem C7_freeze_invariant :
    (∀ (fuel : Nat) (m : BasePromptModule) (p : PromptParameter),
        p ∈ BasePromptModule.parametersFuel fuel m → p.state = ParameterState.active) ∧
    (∀ (m : BasePromptModule) (np : String × PromptParameter),
        np ∈ m.namedParameters → np.2.state = ParameterState.active) ∧
    (∀ {Ex : Type} (cfg : GEPAConfig) (reflect : ReflectFn) (evalFn : EvalFn Ex)
        (examples : List Ex) (m : BasePromptModule) (r : Rng) (res : RunResult),
        (m.params.map (fun p => p.name)).Nodup →
        optimizeModule cfg reflect evalFn examples m r = .ok res →
        res.best.subs = m.subs ∧ nonActives res.best = nonActives m) := by
  refine ⟨?_, ?_, ?_⟩
  · intro fuel
    induction fuel with
    | zero =>
        intro m p hp
        simp [BasePromptModule.parametersFuel] at hp
    | succ n ih =>
        intro m p hp
        rw [BasePromptModule.parametersFuel] at hp
        rcases List.mem_append.1 hp with hp | hp
        · exact state_active_of_mem_parametersDirect hp
        · rw [List.mem_flatMap] at hp
          obtain ⟨sub, _, hmem⟩ := hp
          exact ih sub p hmem
  · intro m np hnp
    rcases List.mem_append.1 hnp with h | h
    · exact state_active_of_mem_noRec h
    · rw [List.mem_flatMap] at h
      obtain ⟨q, _, hmem⟩ := h
      rw [List.mem_map] at hmem
      obtain ⟨np2, hnp2, rfl⟩ := hmem
      have := state_active_of_mem_noRec hnp2
      exact this
  · intro Ex cfg reflect evalFn examples m r res hnd h
    unfold optimizeModule at h
    split at h
    · have hpop := okm_initVariants cfg hnd (cfg.population_size - 1) [m] r
        (by intro x hx
            rw [List.mem_singleton.1 hx]
            exact okm_refl m)
      have hbi : okm m ((createInitialPopulation cfg m r).1.headD defaultModule) := by
        rw [createInitialPopulation_headD]
        exact okm_refl m
      have hok := okm_optLoop cfg reflect evalFn examples hnd _ _ _ _ _ _ _ _ _ hpop hbi h
      exact ⟨hok.1, hok.2.2⟩
    · cases h
      exact ⟨rfl, rfl⟩

/-- Witness for C7: the enumeration conjuncts applied to the concrete
module with a frozen parameter, and the run conjunct applied to its
completed one-generation optimization. -/
theorem C7_freeze_invariant_witness :
    ((⟨"p", "P", ParameterState.active, 0⟩ : PromptParameter)
        ∈ BasePromptModule.parametersFuel 1 mFr ∧
      (⟨"p", "P", ParameterState.active, 0⟩ : PromptParameter).state
        = ParameterState.active) ∧
    ((("p"), (⟨"p", "P", ParameterState.active, 0⟩ : PromptParameter)) ∈ mFr.namedParameters ∧
      (⟨"p", "P", ParameterState.active, 0⟩ : PromptParameter).state
        = ParameterState.active) ∧
    ((mFr.params.map (fun p => p.name)).Nodup ∧
      optimizeModule cfgC7 reflectNoop evalZero noEx mFr rngOne1
        = .ok ⟨mFr, [⟨0, some ⟨0, 1⟩, some ⟨0, 1⟩, 1⟩], 1, some ⟨0, 1⟩⟩ ∧
      ((⟨mFr, [⟨0, some ⟨0, 1⟩, some ⟨0, 1⟩, 1⟩], 1, some ⟨0, 1⟩⟩ : RunResult).best.subs
          = mFr.subs ∧
        nonActives (⟨mFr, [⟨0, some ⟨0, 1⟩, some ⟨0, 1⟩, 1⟩], 1, some ⟨0, 1⟩⟩
            : RunResult).best = nonActives mFr)) :=
  ⟨⟨by decide, C7_freeze_invariant.1 1 mFr ⟨"p", "P", ParameterState.active, 0⟩ (by decide)⟩,
    ⟨by decide,
      C7_freeze_invariant.2.1 mFr (("p"), (⟨"p", "P", ParameterState.active, 0⟩ : PromptParameter))
        (by decide)⟩,
    ⟨by decide, rfl,
      C7_freeze_invariant.2.2 cfgC7 reflectNoop evalZero noEx mFr rngOne1 _ (by decide) rfl⟩⟩

end GEPA
